import Mathlib

/-!
Verification of the nfm terminal file manager (src/nfm.rs, src/action.rs,
src/entry.rs, src/main.rs, src/window.rs) against its design document.

Shallow embedding conventions:
* Rust `String` / `OsString` file names are embedded as `List Char`
  (UTF-8 byte order on names coincides with code-point lexicographic order).
* The fields `selection` and `scroll` of `struct NFM` are `u16`; they are
  embedded as `Nat` values that are kept `< 65536`, with the source's raw
  (release-mode wrapping) `+`/`-` rendered as `wadd`/`wsub`, and its
  `saturating_sub` rendered as truncated subtraction on `Nat`.
* The filesystem collaborator is an oracle: `raw` is the listing that
  `read_dir(".")` returns at the next refresh and an `fsErr : FsOp → Option String`
  function says which filesystem calls fail.  Calls that the source performs
  are logged as a `List FsOp`.
* `Result`-valued Rust code (everything reached through the `?` operator)
  becomes `Except String`.
-/

namespace NFM

/-- Rust `u16` modulus. -/
def U16 : Nat := 65536

/-- Release-mode wrapping `u16` addition (`a + b` in the source). -/
def wadd (a b : Nat) : Nat := (a + b) % U16

/-- Release-mode wrapping `u16` subtraction (`a - b` in the source);
faithful for arguments `< U16`.  `wsub 0 1 = 65535`. -/
def wsub (a b : Nat) : Nat := (a + U16 - b) % U16

/-! ## Directory snapshot provider (nfm.rs `fetch_entries_sorted`, lines 150-166) -/

/-- Rust `str::to_lowercase` applied character-wise (ASCII fragment, which is
what `Char.toLower` implements; the filter in the source only ever compares
the results of this map with each other). -/
def toLowerName (s : List Char) : List Char := s.map Char.toLower

/-- Tests whether `pat` is a prefix of the second list (Rust `str::starts_with`
worker for the substring search). -/
def prefixMatch : List Char → List Char → Bool
  | [], _ => true
  | _ :: _, [] => false
  | p :: ps, c :: cs => p = c && prefixMatch ps cs

/-- Rust `str::contains(pat)`: `pat` occurs as a contiguous substring
(the empty pattern matches everything). -/
def containsName (pat : List Char) : List Char → Bool
  | [] => pat.isEmpty
  | c :: rest => prefixMatch pat (c :: rest) || containsName pat rest

/-- Rust `str::starts_with('.')`. -/
def startsWithDot : List Char → Bool
  | [] => false
  | c :: _ => c = '.'

/-- Rust `std::fs::FileType` as far as the source inspects it (`is_file`,
`is_dir`, anything else). -/
inductive FileType
  | file
  | dir
  | other
deriving DecidableEq

/-- A `DirEntry` as far as nfm.rs reads it: its file name and its file type. -/
structure FileEntry where
  name : List Char
  ftype : FileType
deriving DecidableEq

/-- The filter predicate of `fetch_entries_sorted` (nfm.rs lines 153-161):
the lower-cased name must contain the lower-cased search buffer, and unless
`show_hidden` is set the (lower-cased) name must not start with `'.'`. -/
def entryKeep (show_hidden : Bool) (search_buffer : List Char) (name : List Char) : Bool :=
  let file_name := toLowerName name
  containsName (toLowerName search_buffer) file_name &&
    (if show_hidden then true else !(startsWithDot file_name))

/-- Byte-order comparison of file names (`entries.sort_by_key(|e| e.file_name())`
compares the `OsString` keys byte-wise; on UTF-8 data that is code-point
lexicographic order). -/
def nameLe : List Char → List Char → Bool
  | [], _ => true
  | _ :: _, [] => false
  | a :: as, b :: bs => if a = b then nameLe as bs else decide (a < b)

/-- The sort key order of `fetch_entries_sorted`, as a relation on entries. -/
def entLe (a b : FileEntry) : Prop := nameLe a.name b.name = true

instance : DecidableRel entLe := fun _ _ => instDecidableEqBool _ _

theorem nameLe_total (a b : List Char) : nameLe a b = true ∨ nameLe b a = true := by
  induction a generalizing b with
  | nil => left; rfl
  | cons x xs ih =>
    cases b with
    | nil => right; rfl
    | cons y ys =>
      by_cases hxy : x = y
      · subst hxy
        rcases ih ys with h | h
        · left; simp [nameLe, h]
        · right; simp [nameLe, h]
      · rcases lt_or_gt_of_ne hxy with h | h
        · left; simp [nameLe, hxy, h]
        · right
          have hyx : y ≠ x := fun he => hxy he.symm
          simp [nameLe, hyx, h]

theorem nameLe_trans (a b c : List Char) (hab : nameLe a b = true)
    (hbc : nameLe b c = true) : nameLe a c = true := by
  induction a generalizing b c with
  | nil => rfl
  | cons x xs ih =>
    cases b with
    | nil => simp [nameLe] at hab
    | cons y ys =>
      cases c with
      | nil => simp [nameLe] at hbc
      | cons z zs =>
        by_cases hxy : x = y
        · subst hxy
          simp only [nameLe, if_pos rfl] at hab
          by_cases hyz : x = z
          · subst hyz
            simp only [nameLe, if_pos rfl] at hbc ⊢
            exact ih ys zs hab hbc
          · simp only [nameLe, if_neg hyz] at hbc ⊢
            exact hbc
        · simp only [nameLe, if_neg hxy] at hab
          have hxyl : x < y := of_decide_eq_true hab
          by_cases hyz : y = z
          · subst hyz
            simp [nameLe, if_neg hxy, hxyl]
          · simp only [nameLe, if_neg hyz] at hbc
            have hyzl : y < z := of_decide_eq_true hbc
            have hxzl : x < z := lt_trans hxyl hyzl
            have hxz : x ≠ z := ne_of_lt hxzl
            simp [nameLe, if_neg hxz, hxzl]

instance : IsTotal FileEntry entLe := ⟨fun a b => nameLe_total a.name b.name⟩

instance : IsTrans FileEntry entLe :=
  ⟨fun a b c hab hbc => nameLe_trans a.name b.name c.name hab hbc⟩

/-- nfm.rs `fetch_entries_sorted` (lines 150-166): read the directory
(`raw` is the oracle for `read_dir(".")`), keep the entries passing
`entryKeep`, and sort the result by file name.  The source's
`sort_by_key` and `List.insertionSort` are both stable sorts by the same
key, so they agree on every input. -/
def fetch_entries_sorted (raw : List FileEntry) (show_hidden : Bool)
    (search_buffer : List Char) : List FileEntry :=
  List.insertionSort entLe (raw.filter fun e => entryKeep show_hidden search_buffer e.name)

theorem fetch_sorted (raw : List FileEntry) (sh : Bool) (se : List Char) :
    List.Sorted entLe (fetch_entries_sorted raw sh se) :=
  List.sorted_insertionSort entLe _

theorem fetch_mem (raw : List FileEntry) (sh : Bool) (se : List Char) (e : FileEntry) :
    e ∈ fetch_entries_sorted raw sh se ↔ e ∈ raw ∧ entryKeep sh se e.name = true := by
  unfold fetch_entries_sorted
  rw [List.mem_insertionSort, List.mem_filter]

theorem containsName_empty_pat (s : List Char) : containsName [] s = true := by
  cases s with
  | nil => rfl
  | cons c rest => simp [containsName, prefixMatch]

/-! ## Viewport arithmetic (nfm.rs `handle_actions`, `Mode::Normal` arms)

`selection` and `scroll` are the two `u16` fields of `struct NFM`
(nfm.rs lines 20-21); `rows` below is `terminal::size()?.1` and `len` is
`self.entries.len()`. -/

structure Viewport where
  selection : Nat
  scroll : Nat
deriving DecidableEq

/-- Number of entry rows the draw loop renders (nfm.rs lines 272-285:
indices `scroll ..= rows + scroll - 4` are drawn, i.e. `rows - 3` rows). -/
def visible_rows (rows : Nat) : Nat := rows - 3

/-- nfm.rs lines 478-486, `Action::MoveUp`:
`if selection.saturating_sub(scroll) == 0 { scroll = scroll.saturating_sub(1) }`
then `selection = selection.saturating_sub(1)`. -/
def moveUpStep (v : Viewport) : Viewport :=
  let scr := if v.selection - v.scroll = 0 then v.scroll - 1 else v.scroll
  ⟨v.selection - 1, scr⟩

/-- nfm.rs lines 488-497, `Action::MoveDown`:
`selection = (selection + 1).min(entries.len().saturating_sub(1) as u16)`,
then `if selection.saturating_sub(scroll) >= rows - 3 { scroll += 1 }`. -/
def moveDownStep (rows len : Nat) (v : Viewport) : Viewport :=
  let sel := min (wadd v.selection 1) ((len - 1) % U16)
  let scr := if sel - v.scroll ≥ wsub rows 3 then wadd v.scroll 1 else v.scroll
  ⟨sel, scr⟩

/-- nfm.rs lines 457-465, `Action::ScrollUp`:
`scroll = scroll.saturating_sub(1)`, then
`if selection + scroll > rows - 4 { selection -= 1 }` (raw `u16` ops). -/
def scrollUpStep (rows : Nat) (v : Viewport) : Viewport :=
  let scr := v.scroll - 1
  let sel := if wadd v.selection scr > wsub rows 4 then wsub v.selection 1 else v.selection
  ⟨sel, scr⟩

/-- nfm.rs lines 467-476, `Action::ScrollDown`:
`scroll += 1` (no upper clamp), then
`if selection.saturating_sub(scroll) < rows - 3 { selection = (selection + 1).min(len as u16 - 1) }`. -/
def scrollDownStep (rows len : Nat) (v : Viewport) : Viewport :=
  let scr := wadd v.scroll 1
  let sel :=
    if v.selection - scr < wsub rows 3 then
      min (wadd v.selection 1) (wsub (len % U16) 1)
    else v.selection
  ⟨sel, scr⟩

/-- nfm.rs lines 499-503, `Action::Home`. -/
def homeStep : Viewport := ⟨0, 0⟩

/-- The `while selection.saturating_sub(scroll) >= rows - 3 { scroll += 1 }`
loop of the `Action::End` arm, with fuel.  Fuel `2^17` strictly exceeds the
iteration count of every terminating run of the source loop (`scroll` wraps
after at most `2^16` increments, after which the loop repeats forever). -/
def endScrollLoop : Nat → Nat → Nat → Nat → Nat
  | 0, _, _, scr => scr
  | fuel + 1, rows, sel, scr =>
    if sel - scr ≥ wsub rows 3 then endScrollLoop fuel rows sel (wadd scr 1) else scr

/-- nfm.rs lines 505-514, `Action::End`:
`selection = entries.len() as u16 - 1` (raw `u16` subtraction: wraps to
65535 on an empty list in release builds, panics in debug builds), then the
scroll-follow while loop. -/
def endStep (rows len : Nat) (v : Viewport) : Viewport :=
  let sel := wsub (len % U16) 1
  ⟨sel, endScrollLoop 131072 rows sel v.scroll⟩

/-! ## Text edit buffer (nfm.rs `move_left`/`move_right` lines 298-312 and the
`KeyCode::Backspace`/`Char`/`Left`/`Right` arms of the three prompt modes)

The source keeps the edit cursor implicitly as the terminal cursor column;
column `c` corresponds to logical offset `c - 4` into the buffer
(`cursor::position()?.0 as usize - 4`).  `EditBuffer.cursor` is that
logical offset. -/

structure EditBuffer where
  content : List Char
  cursor : Nat
deriving DecidableEq

/-- nfm.rs lines 298-304 `move_left`: move the cursor left unless it is at
column 4, i.e. at logical offset 0. -/
def move_left (b : EditBuffer) : EditBuffer :=
  if b.cursor > 0 then { b with cursor := b.cursor - 1 } else b

/-- nfm.rs lines 306-312 `move_right`: move the cursor right unless it is at
column `len + 4`, i.e. at logical offset `len`. -/
def move_right (b : EditBuffer) : EditBuffer :=
  if b.cursor < b.content.length then { b with cursor := b.cursor + 1 } else b

/-- Rust `String::remove(i)`: delete the character at index `i`. -/
def stringRemove (s : List Char) (i : Nat) : List Char :=
  s.take i ++ s.drop (i + 1)

/-- Rust `String::insert(i, c)`. -/
def stringInsert (s : List Char) (i : Nat) (c : Char) : List Char :=
  s.take i ++ c :: s.drop i

/-- The body of the `KeyCode::Backspace` arms past their emptiness guard
(e.g. nfm.rs lines 658-663 for Rename): `move_left()` then
`buffer.remove(cursor::position()?.0 as usize - 4)` at the moved position. -/
def bufferBackspace (b : EditBuffer) : EditBuffer :=
  let b1 := move_left b
  { content := stringRemove b1.content b1.cursor, cursor := b1.cursor }

/-- A full `KeyCode::Backspace` arm (nfm.rs lines 653-664, identically
lines 765-773 and 813-822): if the buffer is empty nothing happens
(the source `break`s out of the action loop), otherwise `bufferBackspace`. -/
def backspaceStep (b : EditBuffer) : EditBuffer :=
  if b.content.isEmpty then b else bufferBackspace b

/-- A `KeyCode::Char(c)` arm (e.g. nfm.rs lines 693-699):
`buffer.insert(cursor - 4, c)` then `move_right` against the grown buffer. -/
def bufferInsert (b : EditBuffer) (c : Char) : EditBuffer :=
  move_right { b with content := stringInsert b.content b.cursor c }

/-! ## Mode state machine (mode.rs, action.rs, nfm.rs `handle_key_event` and
`handle_actions`) -/

/-- Modelled from the spec: mode.rs is declared by main.rs (`mod mode;`) but is
not among the provided source files.  Spec section 3 lists the Mode tag as
`Normal | Rename | Remove | Add | Search | Help`, exactly the six variants
nfm.rs matches on. -/
inductive Mode
  | Normal
  | Rename
  | Remove
  | Add
  | Search
  | Help
deriving DecidableEq

/-- The crossterm `KeyCode` variants nfm.rs inspects. -/
inductive KeyCode
  | Esc
  | Up
  | Down
  | Enter
  | Backspace
  | Home
  | End
  | Left
  | Right
  | Char (c : Char)
deriving DecidableEq

/-- action.rs: the `Action` enum, verbatim. -/
inductive Action
  | Close
  | Redraw
  | MoveUp
  | MoveDown
  | ScrollUp
  | ScrollDown
  | Home
  | End
  | ToggleHidden
  | Rename
  | Remove
  | Add
  | Open
  | Back
  | Search
  | ToggleHelp
  | Input (code : KeyCode)
deriving DecidableEq

/-- Filesystem / external-process requests the controller performs
(nfm.rs: `rename`, `remove_file`, `remove_dir_all`, `create_dir`,
`File::create`, `set_current_dir`, and spawning `nvim`). -/
inductive FsOp
  | rename (oldName newName : List Char)
  | removeFile (name : List Char)
  | removeDirAll (name : List Char)
  | createDir (name : List Char)
  | createFile (name : List Char)
  | setCurrentDir (path : List Char)
  | launchEditor (path : List Char)
deriving DecidableEq

/-- The fields of `struct NFM` (nfm.rs lines 19-30) that the action handlers
read or write.  `cursor` is the logical edit-cursor offset, i.e. the terminal
cursor column minus 4, which is how the source stores the edit position of
whichever prompt buffer is active.  The `actions` queue is passed separately
to `handle_actions` as a list. -/
structure NFMState where
  selection : Nat
  scroll : Nat
  entries : List FileEntry
  mode : Mode
  show_hidden : Bool
  rename_buffer : List Char
  add_buffer : List Char
  search_buffer : List Char
  should_close : Bool
  cursor : Nat
deriving DecidableEq

/-- nfm.rs lines 71-129 `handle_key_event`: classify a key event into the
actions pushed onto the queue (`ctrl` is `event.modifiers.bits() & 2 != 0`). -/
def handle_key_event (mode : Mode) (code : KeyCode) (ctrl : Bool) : List Action :=
  match mode with
  | Mode.Normal =>
    match code with
    | KeyCode.Esc => [Action.Close]
    | KeyCode.Up => if ctrl then [Action.ScrollUp] else [Action.MoveUp]
    | KeyCode.Down => if ctrl then [Action.ScrollDown] else [Action.MoveDown]
    | KeyCode.Enter => [Action.Open]
    | KeyCode.Backspace => [Action.Back]
    | KeyCode.Home => [Action.Home]
    | KeyCode.End => [Action.End]
    | KeyCode.Char c =>
      if c = 'h' then [Action.ToggleHidden]
      else if c = 'r' then [Action.Rename]
      else if c = 'd' then [Action.Remove]
      else if c = 'a' then [Action.Add]
      else if c = '/' then [Action.Search]
      else if c = '?' then [Action.ToggleHelp]
      else []
    | _ => []
  | Mode.Rename =>
    match code with
    | KeyCode.Esc => [Action.Close]
    | input => [Action.Input input]
  | Mode.Remove =>
    match code with
    | KeyCode.Esc => [Action.Close]
    | KeyCode.Enter => [Action.Remove]
    | _ => []
  | Mode.Add =>
    match code with
    | KeyCode.Esc => [Action.Close]
    | KeyCode.Enter => [Action.Add]
    | input => [Action.Input input]
  | Mode.Search =>
    match code with
    | KeyCode.Esc => [Action.Close]
    | input => [Action.Input input]
  | Mode.Help =>
    match code with
    | KeyCode.Esc => [Action.Close]
    | KeyCode.Char c => if c = '?' then [Action.Close] else []
    | _ => []

/-- Result of handling one queued action: the new state, whether the source
executed `break` (which abandons the rest of the queue), and the filesystem
calls performed, in order. -/
structure StepOut where
  state : NFMState
  broke : Bool
  ops : List FsOp
deriving DecidableEq

/-- Message standing for a Rust `Option::unwrap` panic on `None`
(`self.entries.get(self.selection as usize).unwrap()`). -/
def panicMsg : String := "panicked at unwrap of a None value"

/-- Path literal for `set_current_dir("..")`. -/
def dotdot : List Char := ['.', '.']

/-- One arm of the `for action in self.actions.iter()` loop of
nfm.rs `handle_actions` (lines 450-869), matching first on `self.mode`, then
on the action.  `fsErr op = some e` means the underlying filesystem call
fails with I/O error `e` (every such call sits behind `?` in the source, so
an error aborts `handle_actions` — here: returns `Except.error e`).
`raw` is the oracle for what `read_dir(".")` yields whenever `draw()`
re-reads the directory; `rows` is `terminal::size()?.1`.
Pure redraw work (queued terminal output) has no state content and is
dropped; `draw()` calls whose `Vec<DirEntry>` result the source discards are
likewise not recorded.  The source's consecutive
`entries = draw(); selection = min(..); entries = draw()` re-reads the same
oracle twice, so it is rendered as a single fetch. -/
def handle_action (fsErr : FsOp → Option String) (raw : List FileEntry) (rows : Nat)
    (s : NFMState) (a : Action) : Except String StepOut :=
  match s.mode with
  | Mode.Normal =>
    match a with
    | Action.Close => .ok ⟨{ s with should_close := true }, false, []⟩
    | Action.Redraw =>
      .ok ⟨{ s with entries := fetch_entries_sorted raw s.show_hidden s.search_buffer }, false, []⟩
    | Action.ScrollUp =>
      let v := scrollUpStep rows ⟨s.selection, s.scroll⟩
      .ok ⟨{ s with selection := v.selection, scroll := v.scroll }, false, []⟩
    | Action.ScrollDown =>
      let v := scrollDownStep rows s.entries.length ⟨s.selection, s.scroll⟩
      .ok ⟨{ s with selection := v.selection, scroll := v.scroll }, false, []⟩
    | Action.MoveUp =>
      let v := moveUpStep ⟨s.selection, s.scroll⟩
      .ok ⟨{ s with selection := v.selection, scroll := v.scroll }, false, []⟩
    | Action.MoveDown =>
      let v := moveDownStep rows s.entries.length ⟨s.selection, s.scroll⟩
      .ok ⟨{ s with selection := v.selection, scroll := v.scroll }, false, []⟩
    | Action.Home =>
      .ok ⟨{ s with selection := homeStep.selection, scroll := homeStep.scroll }, false, []⟩
    | Action.End =>
      let v := endStep rows s.entries.length ⟨s.selection, s.scroll⟩
      .ok ⟨{ s with selection := v.selection, scroll := v.scroll }, false, []⟩
    | Action.ToggleHidden =>
      let entries1 := fetch_entries_sorted raw (!s.show_hidden) s.search_buffer
      .ok ⟨{ s with
               show_hidden := !s.show_hidden,
               scroll := 0,
               entries := entries1,
               selection := min s.selection ((entries1.length - 1) % U16) }, false, []⟩
    | Action.Rename =>
      if s.selection ≥ s.entries.length % U16 then .ok ⟨s, true, []⟩
      else
        match s.entries.get? s.selection with
        | none => .error panicMsg
        | some ent =>
          .ok ⟨{ s with
                   mode := Mode.Rename,
                   rename_buffer := ent.name,
                   cursor := ent.name.length }, false, []⟩
    | Action.Remove =>
      if s.selection ≥ s.entries.length % U16 then .ok ⟨s, true, []⟩
      else .ok ⟨{ s with mode := Mode.Remove }, false, []⟩
    | Action.Add =>
      .ok ⟨{ s with mode := Mode.Add, cursor := 0 }, false, []⟩
    | Action.Open =>
      if s.selection ≥ s.entries.length % U16 then .ok ⟨s, true, []⟩
      else
        match s.entries.get? s.selection with
        | none => .error panicMsg
        | some ent =>
          let op := if ent.ftype = FileType.dir then FsOp.setCurrentDir ent.name
                    else FsOp.launchEditor ent.name
          match fsErr op with
          | some e => .error e
          | none =>
            let entries1 := fetch_entries_sorted raw s.show_hidden []
            .ok ⟨{ s with
                     search_buffer := [],
                     scroll := 0,
                     entries := entries1,
                     selection := min s.selection ((entries1.length - 1) % U16) }, false, [op]⟩
    | Action.Back =>
      match fsErr (FsOp.setCurrentDir dotdot) with
      | some e => .error e
      | none =>
        let entries1 := fetch_entries_sorted raw s.show_hidden s.search_buffer
        .ok ⟨{ s with
                 scroll := 0,
                 entries := entries1,
                 selection := min s.selection ((entries1.length - 1) % U16) }, false,
             [FsOp.setCurrentDir dotdot]⟩
    | Action.Search =>
      .ok ⟨{ s with mode := Mode.Search, search_buffer := [], cursor := 0 }, false, []⟩
    | Action.ToggleHelp =>
      .ok ⟨{ s with mode := Mode.Help }, false, []⟩
    | Action.Input _ => .ok ⟨s, false, []⟩
  | Mode.Rename =>
    match a with
    | Action.Close => .ok ⟨{ s with mode := Mode.Normal }, false, []⟩
    | Action.Input code =>
      match code with
      | KeyCode.Backspace =>
        if s.rename_buffer.isEmpty then .ok ⟨s, true, []⟩
        else
          let b := bufferBackspace ⟨s.rename_buffer, s.cursor⟩
          .ok ⟨{ s with rename_buffer := b.content, cursor := b.cursor }, false, []⟩
      | KeyCode.Enter =>
        match s.entries.get? s.selection with
        | none => .error panicMsg
        | some ent =>
          if ent.name ≠ s.rename_buffer then
            match fsErr (FsOp.rename ent.name s.rename_buffer) with
            | some e => .error e
            | none =>
              .ok ⟨{ s with
                       mode := Mode.Normal,
                       entries := fetch_entries_sorted raw s.show_hidden s.search_buffer },
                   false, [FsOp.rename ent.name s.rename_buffer]⟩
          else
            .ok ⟨{ s with
                     mode := Mode.Normal,
                     entries := fetch_entries_sorted raw s.show_hidden s.search_buffer },
                 false, []⟩
      | KeyCode.Left =>
        .ok ⟨{ s with cursor := (move_left ⟨s.rename_buffer, s.cursor⟩).cursor }, false, []⟩
      | KeyCode.Right =>
        .ok ⟨{ s with cursor := (move_right ⟨s.rename_buffer, s.cursor⟩).cursor }, false, []⟩
      | KeyCode.Char c =>
        let b := bufferInsert ⟨s.rename_buffer, s.cursor⟩ c
        .ok ⟨{ s with rename_buffer := b.content, cursor := b.cursor }, false, []⟩
      | _ => .ok ⟨s, false, []⟩
    | _ => .ok ⟨s, false, []⟩
  | Mode.Remove =>
    match a with
    | Action.Close => .ok ⟨{ s with mode := Mode.Normal }, false, []⟩
    | Action.Remove =>
      match s.entries.get? s.selection with
      | none => .error panicMsg
      | some ent =>
        let finish := fun (ops : List FsOp) =>
          let entries1 := fetch_entries_sorted raw s.show_hidden s.search_buffer
          Except.ok (ε := String)
            (StepOut.mk { s with
                            mode := Mode.Normal,
                            entries := entries1,
                            selection := min s.selection ((entries1.length - 1) % U16) }
              false ops)
        match ent.ftype with
        | FileType.file =>
          match fsErr (FsOp.removeFile ent.name) with
          | some e => .error e
          | none => finish [FsOp.removeFile ent.name]
        | FileType.dir =>
          match fsErr (FsOp.removeDirAll ent.name) with
          | some e => .error e
          | none => finish [FsOp.removeDirAll ent.name]
        | FileType.other => finish []
    | _ => .ok ⟨s, false, []⟩
  | Mode.Add =>
    match a with
    | Action.Close =>
      .ok ⟨{ s with mode := Mode.Normal, add_buffer := [] }, false, []⟩
    | Action.Add =>
      let name := s.add_buffer
      let op := if name.getLast? = some '/' then FsOp.createDir name else FsOp.createFile name
      match fsErr op with
      | some e => .error e
      | none =>
        .ok ⟨{ s with
                 mode := Mode.Normal,
                 add_buffer := [],
                 selection := min s.selection ((s.entries.length - 1) % U16),
                 entries := fetch_entries_sorted raw s.show_hidden s.search_buffer },
             false, [op]⟩
    | Action.Input code =>
      match code with
      | KeyCode.Backspace =>
        if s.add_buffer.isEmpty then .ok ⟨s, true, []⟩
        else
          let b := bufferBackspace ⟨s.add_buffer, s.cursor⟩
          .ok ⟨{ s with add_buffer := b.content, cursor := b.cursor }, false, []⟩
      | KeyCode.Enter =>
        .ok ⟨{ s with
                 mode := Mode.Normal,
                 entries := fetch_entries_sorted raw s.show_hidden s.search_buffer }, false, []⟩
      | KeyCode.Left =>
        .ok ⟨{ s with cursor := (move_left ⟨s.add_buffer, s.cursor⟩).cursor }, false, []⟩
      | KeyCode.Right =>
        .ok ⟨{ s with cursor := (move_right ⟨s.add_buffer, s.cursor⟩).cursor }, false, []⟩
      | KeyCode.Char c =>
        let b := bufferInsert ⟨s.add_buffer, s.cursor⟩ c
        .ok ⟨{ s with add_buffer := b.content, cursor := b.cursor }, false, []⟩
      | _ => .ok ⟨s, false, []⟩
    | _ => .ok ⟨s, false, []⟩
  | Mode.Search =>
    let inner : Option NFMState :=
      match a with
      | Action.Close => some { s with mode := Mode.Normal, search_buffer := [] }
      | Action.Input code =>
        match code with
        | KeyCode.Backspace =>
          if s.search_buffer.isEmpty then none
          else
            let b := bufferBackspace ⟨s.search_buffer, s.cursor⟩
            some { s with search_buffer := b.content, cursor := b.cursor }
        | KeyCode.Enter => some { s with mode := Mode.Normal }
        | KeyCode.Left =>
          some { s with cursor := (move_left ⟨s.search_buffer, s.cursor⟩).cursor }
        | KeyCode.Right =>
          some { s with cursor := (move_right ⟨s.search_buffer, s.cursor⟩).cursor }
        | KeyCode.Char c =>
          let b := bufferInsert ⟨s.search_buffer, s.cursor⟩ c
          some { s with search_buffer := b.content, cursor := b.cursor }
        | _ => some s
      | _ => some s
    match inner with
    | none => .ok ⟨s, true, []⟩
    | some s1 =>
      let entries1 := fetch_entries_sorted raw s1.show_hidden s1.search_buffer
      .ok ⟨{ s1 with
               scroll := 0,
               entries := entries1,
               selection := min s1.selection ((entries1.length - 1) % U16) }, false, []⟩
  | Mode.Help =>
    match a with
    | Action.Close => .ok ⟨{ s with mode := Mode.Normal }, false, []⟩
    | _ => .ok ⟨s, false, []⟩

/-- nfm.rs `handle_actions` (lines 450-873): fold `handle_action` over the
queued actions in arrival order; a `break` abandons the remainder of the
queue, and a filesystem error propagates out through `?`. -/
def handle_actions (fsErr : FsOp → Option String) (raw : List FileEntry) (rows : Nat) :
    List Action → NFMState → Except String (NFMState × List FsOp)
  | [], s => .ok (s, [])
  | a :: rest, s =>
    match handle_action fsErr raw rows s a with
    | .error e => .error e
    | .ok o =>
      if o.broke then .ok (o.state, o.ops)
      else
        match handle_actions fsErr raw rows rest o.state with
        | .error e => .error e
        | .ok (s2, ops2) => .ok (s2, o.ops ++ ops2)

/-- One pass of the `while !self.should_close` loop of `run`
(nfm.rs lines 875-884): `handle_actions()?` — in the source an error here
exits `run` through `?`, and main.rs lines 11-14 return it from `main`,
terminating the process. -/
def run_iteration (fsErr : FsOp → Option String) (raw : List FileEntry) (rows : Nat)
    (queued : List Action) (s : NFMState) : Except String (NFMState × List FsOp) :=
  if s.should_close then .ok (s, []) else handle_actions fsErr raw rows queued s

/-! ## Claim theorems -/

/-- C4: the Snapshot query `fetch_entries_sorted` returns the directory
entries sorted by name (byte order), keeps exactly the entries passing the
hidden-file/substring filter `entryKeep` (lower-cased substring containment
of the search buffer, hidden names beginning with a dot excluded unless
`show_hidden`), the empty filter matches every name, and the raw listing
b.txt, a.txt, .hidden with `show_hidden = false` and empty filter yields
exactly a.txt then b.txt. -/
theorem C4_snapshot_query :
    (∀ raw sh se, List.Sorted entLe (fetch_entries_sorted raw sh se))
  ∧ (∀ raw sh se (e : FileEntry),
      e ∈ fetch_entries_sorted raw sh se ↔ e ∈ raw ∧ entryKeep sh se e.name = true)
  ∧ (∀ name, containsName [] name = true)
  ∧ fetch_entries_sorted
      [⟨"b.txt".toList, FileType.file⟩, ⟨"a.txt".toList, FileType.file⟩,
       ⟨".hidden".toList, FileType.file⟩] false []
    = [⟨"a.txt".toList, FileType.file⟩, ⟨"b.txt".toList, FileType.file⟩] :=
  ⟨fetch_sorted, fetch_mem, containsName_empty_pat, by decide⟩

/-- C2 (code bug witness at the failing input): with an empty entry list,
the `Action::End` arm computes `self.entries.len() as u16 - 1 = 0u16 - 1`.
In release builds `selection` wraps to 65535, violating
`selection < max 1 len = 1`; in debug builds the subtraction overflow
panics.  (`rows = 8`, i.e. `visible_rows = 5`, and an initial viewport
`(0, 0)` as in the claim; the other listed actions are not at fault.) -/
theorem C2_end_empty_wraps :
    (endStep 8 0 ⟨0, 0⟩).selection = 65535 ∧
    ¬ ((endStep 8 0 ⟨0, 0⟩).selection < max 1 0) :=
  ⟨rfl, by decide⟩

/-- C3 counterexample: with an empty list (so the claim requires selection
and scroll to stay 0, and scroll to stay within `[0, max 0 (len - visible)]
= {0}`), a single `ScrollDown` from `(selection, scroll) = (0, 0)` at
`rows = 8` produces `(1, 1)`. -/
theorem C3_counterexample :
    scrollDownStep 8 0 ⟨0, 0⟩ = ⟨1, 1⟩ ∧
    ¬ ((scrollDownStep 8 0 ⟨0, 0⟩).scroll ≤ max 0 (0 - 5) ∧
       (scrollDownStep 8 0 ⟨0, 0⟩).selection = 0) := by
  decide

/-- C3 (amended): `ScrollUp` only clamps scroll at 0 (saturating decrement);
`ScrollDown` increments scroll by exactly one (wrapping, with no upper
clamp), so scroll is not confined to `[0, max 0 (len - visible_rows)]`; and
on an empty list a `ScrollDown` leaves `(selection, scroll) = (1, 1)`, not
`(0, 0)`. -/
theorem C3_amended_scroll :
    (∀ rows v, (scrollUpStep rows v).scroll = v.scroll - 1)
  ∧ (∀ rows len v, (scrollDownStep rows len v).scroll = wadd v.scroll 1)
  ∧ scrollDownStep 8 0 ⟨0, 0⟩ = ⟨1, 1⟩ :=
  ⟨fun _ _ => rfl, fun _ _ _ => rfl, by decide⟩

/-- C5 counterexample: backspace with the cursor at offset 0 of the
nonempty buffer "ab" is not a no-op: `move_left` does nothing at column 4,
and `remove(cursor - 4) = remove(0)` then deletes the character AT the
cursor, yielding "b". -/
theorem C5_counterexample :
    backspaceStep ⟨['a', 'b'], 0⟩ = ⟨['b'], 0⟩ ∧
    backspaceStep ⟨['a', 'b'], 0⟩ ≠ ⟨['a', 'b'], 0⟩ := by
  decide

/-- C5 (amended): in every text-edit prompt, backspace is a no-op exactly
when the buffer is empty; with a nonempty buffer and the cursor at 0 it
removes the character at position 0 and leaves the cursor at 0
(delete-at-cursor, not backspace, semantics at the left edge); with the
cursor at `k > 0` it removes the character immediately before the cursor
and decrements the cursor. -/
theorem C5_amended_backspace (b : EditBuffer) :
    (b.content = [] → backspaceStep b = b) ∧
    (b.content ≠ [] → b.cursor = 0 → backspaceStep b = ⟨b.content.drop 1, 0⟩) ∧
    (b.content ≠ [] → 0 < b.cursor →
      backspaceStep b =
        ⟨b.content.take (b.cursor - 1) ++ b.content.drop b.cursor, b.cursor - 1⟩) := by
  refine ⟨fun h => ?_, fun h h0 => ?_, fun h hpos => ?_⟩
  · simp [backspaceStep, h]
  · simp [backspaceStep, bufferBackspace, move_left, stringRemove, h, h0,
      List.isEmpty_iff]
  · have hc : b.cursor - 1 + 1 = b.cursor := Nat.succ_pred_eq_of_pos hpos
    simp [backspaceStep, bufferBackspace, move_left, stringRemove, h, hpos,
      List.isEmpty_iff, hc]

/-- C5 witness: concrete instance of the amended backspace semantics at
cursor 1 of "ab". -/
theorem C5_witness :
    (['a', 'b'] : List Char) ≠ [] ∧ 0 < 1 ∧
    backspaceStep ⟨['a', 'b'], 1⟩ = ⟨['b'], 0⟩ :=
  ⟨by decide, by decide,
    (C5_amended_backspace ⟨['a', 'b'], 1⟩).2.2 (by decide) (by decide)⟩

/-- C6: with a 20-entry list and `rows = 8` (so `visible_rows = 5`),
five `MoveDown` steps from `(selection, scroll) = (0, 0)` end at
`(selection, scroll) = (5, 1)`. -/
theorem C6_move_down_five :
    visible_rows 8 = 5 ∧
    moveDownStep 8 20 (moveDownStep 8 20 (moveDownStep 8 20 (moveDownStep 8 20
      (moveDownStep 8 20 ⟨0, 0⟩)))) = ⟨5, 1⟩ := by
  decide

/-- C9: in Normal mode with `selection` at or past the entry-list length
(in particular on an empty list), the Rename, Remove and Open actions hit
their `selection >= entries.len()` guard and `break`: the state (including
the mode) is unchanged, no filesystem call is made, and no entry is
indexed (no `unwrap` panic — the model's `Except.error panicMsg` branch is
not taken). -/
theorem C9_guarded_noops (fsErr : FsOp → Option String) (raw : List FileEntry)
    (rows : Nat) (s : NFMState) (hmode : s.mode = Mode.Normal)
    (hsel : s.entries.length ≤ s.selection) :
    handle_actions fsErr raw rows [Action.Rename] s = .ok (s, []) ∧
    handle_actions fsErr raw rows [Action.Remove] s = .ok (s, []) ∧
    handle_actions fsErr raw rows [Action.Open] s = .ok (s, []) := by
  have hguard : s.entries.length % U16 ≤ s.selection :=
    le_trans (Nat.mod_le _ _) hsel
  refine ⟨?_, ?_, ?_⟩ <;>
    simp [handle_actions, handle_action, hmode, hguard]

/-- All-clear filesystem oracle for witnesses. -/
def fsNone : FsOp → Option String := fun _ => none

/-- Sample state: Normal mode over an empty directory. -/
def sampleNormal : NFMState :=
  { selection := 0, scroll := 0, entries := [], mode := Mode.Normal,
    show_hidden := false, rename_buffer := [], add_buffer := [],
    search_buffer := [], should_close := false, cursor := 0 }

/-- C9 witness: on the empty-directory Normal state, Rename is a guarded
no-op. -/
theorem C9_witness :
    sampleNormal.mode = Mode.Normal ∧
    sampleNormal.entries.length ≤ sampleNormal.selection ∧
    handle_actions fsNone [] 8 [Action.Rename] sampleNormal = .ok (sampleNormal, []) :=
  ⟨rfl, by decide,
    (C9_guarded_noops fsNone [] 8 sampleNormal rfl (by decide)).1⟩

/-- C7: Enter while in Rename mode is classified as `Input(Enter)`, and its
handler requests `rename(old, new)` exactly when the edited buffer differs
from the selected entry's name; in both cases the mode returns to Normal
and the entry list is re-fetched.  With the buffer unchanged no filesystem
call at all is made. -/
theorem C7_rename_commit (fsErr : FsOp → Option String) (raw : List FileEntry)
    (rows : Nat) (s : NFMState) (ent : FileEntry)
    (hmode : s.mode = Mode.Rename)
    (hent : s.entries.get? s.selection = some ent)
    (hfs : fsErr (FsOp.rename ent.name s.rename_buffer) = none) :
    handle_key_event Mode.Rename KeyCode.Enter false = [Action.Input KeyCode.Enter] ∧
    ∃ s2 ops,
      handle_actions fsErr raw rows [Action.Input KeyCode.Enter] s = .ok (s2, ops) ∧
      s2.mode = Mode.Normal ∧
      s2.entries = fetch_entries_sorted raw s.show_hidden s.search_buffer ∧
      (ops ≠ [] ↔ ent.name ≠ s.rename_buffer) ∧
      (ent.name = s.rename_buffer → ops = []) ∧
      (ent.name ≠ s.rename_buffer → ops = [FsOp.rename ent.name s.rename_buffer]) := by
  refine ⟨rfl, ?_⟩
  rw [List.get?_eq_getElem?] at hent
  by_cases heq : ent.name = s.rename_buffer
  · exact ⟨{ s with
               mode := Mode.Normal,
               entries := fetch_entries_sorted raw s.show_hidden s.search_buffer }, [],
      by simp [handle_actions, handle_action, hmode, hent, heq],
      rfl, rfl, by simp [heq], fun _ => rfl, fun hne => absurd heq hne⟩
  · exact ⟨{ s with
               mode := Mode.Normal,
               entries := fetch_entries_sorted raw s.show_hidden s.search_buffer },
      [FsOp.rename ent.name s.rename_buffer],
      by simp [handle_actions, handle_action, hmode, hent, heq, hfs],
      rfl, rfl, by simp [heq], fun habs => absurd habs heq, fun _ => rfl⟩

/-- Sample state: Rename mode over a one-file directory with the buffer
left unchanged. -/
def sampleRename : NFMState :=
  { selection := 0, scroll := 0, entries := [⟨"a.txt".toList, FileType.file⟩],
    mode := Mode.Rename, show_hidden := false, rename_buffer := "a.txt".toList,
    add_buffer := [], search_buffer := [], should_close := false, cursor := 5 }

/-- C7 witness: committing a Rename with the buffer equal to the original
name performs no filesystem call and returns to Normal mode. -/
theorem C7_witness :
    sampleRename.mode = Mode.Rename ∧
    sampleRename.entries.get? sampleRename.selection =
      some ⟨"a.txt".toList, FileType.file⟩ ∧
    (handle_key_event Mode.Rename KeyCode.Enter false = [Action.Input KeyCode.Enter] ∧
     ∃ s2 ops,
      handle_actions fsNone [⟨"a.txt".toList, FileType.file⟩] 8
          [Action.Input KeyCode.Enter] sampleRename = .ok (s2, ops) ∧
      s2.mode = Mode.Normal ∧
      s2.entries = fetch_entries_sorted [⟨"a.txt".toList, FileType.file⟩]
          sampleRename.show_hidden sampleRename.search_buffer ∧
      (ops ≠ [] ↔ (FileEntry.mk "a.txt".toList FileType.file).name ≠
        sampleRename.rename_buffer) ∧
      ((FileEntry.mk "a.txt".toList FileType.file).name = sampleRename.rename_buffer →
        ops = []) ∧
      ((FileEntry.mk "a.txt".toList FileType.file).name ≠ sampleRename.rename_buffer →
        ops = [FsOp.rename (FileEntry.mk "a.txt".toList FileType.file).name
          sampleRename.rename_buffer])) :=
  ⟨rfl, by decide,
    C7_rename_commit fsNone [⟨"a.txt".toList, FileType.file⟩] 8 sampleRename
      ⟨"a.txt".toList, FileType.file⟩ rfl (by decide) rfl⟩

/-- C8: Enter while in Add mode is classified as the Add action, and the
Add commit creates a directory exactly when the typed name ends with '/',
an empty file otherwise; the mode returns to Normal, the buffer is cleared
and the entry list is re-fetched. -/
theorem C8_add_commit (fsErr : FsOp → Option String) (raw : List FileEntry)
    (rows : Nat) (s : NFMState) (hmode : s.mode = Mode.Add)
    (hfs : fsErr (if s.add_buffer.getLast? = some '/' then FsOp.createDir s.add_buffer
                  else FsOp.createFile s.add_buffer) = none) :
    handle_key_event Mode.Add KeyCode.Enter false = [Action.Add] ∧
    ∃ s2,
      handle_actions fsErr raw rows [Action.Add] s =
        .ok (s2, [if s.add_buffer.getLast? = some '/' then FsOp.createDir s.add_buffer
                  else FsOp.createFile s.add_buffer]) ∧
      s2.mode = Mode.Normal ∧
      s2.add_buffer = [] ∧
      s2.entries = fetch_entries_sorted raw s.show_hidden s.search_buffer := by
  refine ⟨rfl, ?_⟩
  refine ⟨{ s with
              mode := Mode.Normal,
              add_buffer := [],
              selection := min s.selection ((s.entries.length - 1) % U16),
              entries := fetch_entries_sorted raw s.show_hidden s.search_buffer },
    ?_, rfl, rfl, rfl⟩
  by_cases hsl : s.add_buffer.getLast? = some '/' <;>
    simp [handle_actions, handle_action, hmode, hsl, hfs] at hfs ⊢ <;>
    simp [handle_actions, handle_action, hmode, hsl, hfs]

/-- Sample state: Add mode with "docs/" typed. -/
def sampleAdd : NFMState :=
  { selection := 0, scroll := 0, entries := [], mode := Mode.Add,
    show_hidden := false, rename_buffer := [], add_buffer := "docs/".toList,
    search_buffer := [], should_close := false, cursor := 5 }

/-- C8 witness: committing Add with buffer "docs/" requests directory
creation and returns to Normal mode with the buffer cleared. -/
theorem C8_witness :
    sampleAdd.mode = Mode.Add ∧
    (handle_key_event Mode.Add KeyCode.Enter false = [Action.Add] ∧
     ∃ s2,
      handle_actions fsNone [] 8 [Action.Add] sampleAdd =
        .ok (s2, [if sampleAdd.add_buffer.getLast? = some '/'
                  then FsOp.createDir sampleAdd.add_buffer
                  else FsOp.createFile sampleAdd.add_buffer]) ∧
      s2.mode = Mode.Normal ∧
      s2.add_buffer = [] ∧
      s2.entries = fetch_entries_sorted [] sampleAdd.show_hidden
        sampleAdd.search_buffer) :=
  ⟨rfl, C8_add_commit fsNone [] 8 sampleAdd rfl rfl⟩

/-- C10: opening a non-directory entry (Enter in Normal mode) launches the
external editor and then applies exactly the state effects of the
open-directory path: the search filter is cleared, scroll resets to 0, the
entry list is re-fetched (with the cleared filter), and the selection is
re-clamped to the new list length.  The last conjunct runs the same Open on
the same state with the selected entry turned into a directory and obtains
the identical post-state. -/
theorem C10_open_file (fsErr : FsOp → Option String) (raw : List FileEntry)
    (rows : Nat) (s : NFMState) (ent : FileEntry)
    (hmode : s.mode = Mode.Normal)
    (hent : s.entries.get? s.selection = some ent)
    (hguard : s.selection < s.entries.length % U16)
    (hnd : ent.ftype ≠ FileType.dir)
    (hfs1 : fsErr (FsOp.launchEditor ent.name) = none)
    (hfs2 : fsErr (FsOp.setCurrentDir ent.name) = none) :
    ∃ s2,
      handle_actions fsErr raw rows [Action.Open] s =
        .ok (s2, [FsOp.launchEditor ent.name]) ∧
      s2.search_buffer = [] ∧ s2.scroll = 0 ∧
      s2.entries = fetch_entries_sorted raw s.show_hidden [] ∧
      s2.selection =
        min s.selection (((fetch_entries_sorted raw s.show_hidden []).length - 1) % U16) ∧
      handle_actions fsErr raw rows [Action.Open]
          { s with entries := s.entries.set s.selection { ent with ftype := FileType.dir } }
        = .ok (s2, [FsOp.setCurrentDir ent.name]) := by
  have hlt : s.selection < s.entries.length := lt_of_lt_of_le hguard (Nat.mod_le _ _)
  have hnotge : ¬ (s.entries.length % U16 ≤ s.selection) := Nat.not_le.mpr hguard
  rw [List.get?_eq_getElem?] at hent
  have hset : (s.entries.set s.selection { ent with ftype := FileType.dir })[s.selection]? =
      some { ent with ftype := FileType.dir } :=
    List.getElem?_set_eq_of_lt _ hlt
  refine ⟨{ s with
             search_buffer := [],
             scroll := 0,
             entries := fetch_entries_sorted raw s.show_hidden [],
             selection := min s.selection
               (((fetch_entries_sorted raw s.show_hidden []).length - 1) % U16) },
    ?_, rfl, rfl, rfl, rfl, ?_⟩
  · simp [handle_actions, handle_action, hmode, hnotge, hent, hnd, hfs1]
  · simp [handle_actions, handle_action, hmode, hnotge, hset, hfs2, List.length_set]

/-- Sample state: Normal mode over a one-file directory, file selected. -/
def sampleOpen : NFMState :=
  { selection := 0, scroll := 0, entries := [⟨"f.rs".toList, FileType.file⟩],
    mode := Mode.Normal, show_hidden := false, rename_buffer := [],
    add_buffer := [], search_buffer := "rs".toList, should_close := false, cursor := 0 }

/-- C10 witness: opening the regular file "f.rs" clears the filter, resets
scroll, re-fetches and re-clamps — identically to opening it as a
directory. -/
theorem C10_witness :
    sampleOpen.entries.get? sampleOpen.selection =
      some ⟨"f.rs".toList, FileType.file⟩ ∧
    sampleOpen.selection < sampleOpen.entries.length % U16 ∧
    (FileEntry.mk "f.rs".toList FileType.file).ftype ≠ FileType.dir ∧
    ∃ s2,
      handle_actions fsNone [⟨"f.rs".toList, FileType.file⟩] 8 [Action.Open] sampleOpen =
        .ok (s2, [FsOp.launchEditor "f.rs".toList]) ∧
      s2.search_buffer = [] ∧ s2.scroll = 0 ∧
      s2.entries = fetch_entries_sorted [⟨"f.rs".toList, FileType.file⟩]
        sampleOpen.show_hidden [] ∧
      s2.selection = min sampleOpen.selection
        (((fetch_entries_sorted [⟨"f.rs".toList, FileType.file⟩]
            sampleOpen.show_hidden []).length - 1) % U16) ∧
      handle_actions fsNone [⟨"f.rs".toList, FileType.file⟩] 8 [Action.Open]
          { sampleOpen with
              entries := sampleOpen.entries.set sampleOpen.selection
                ⟨"f.rs".toList, FileType.dir⟩ }
        = .ok (s2, [FsOp.setCurrentDir "f.rs".toList]) :=
  ⟨by decide, by decide, by decide,
    C10_open_file fsNone [⟨"f.rs".toList, FileType.file⟩] 8 sampleOpen
      ⟨"f.rs".toList, FileType.file⟩ rfl (by decide) (by decide) (by decide) rfl rfl⟩

/-- Tags for the four filesystem-affecting commits of claim C1. -/
inductive FsActionKind
  | renameCommit
  | removeConfirm
  | addCommit
  | openDirectory
deriving DecidableEq

/-- The queued action performing each filesystem-affecting commit. -/
def fsKindAction : FsActionKind → Action
  | FsActionKind.renameCommit => Action.Input KeyCode.Enter
  | FsActionKind.removeConfirm => Action.Remove
  | FsActionKind.addCommit => Action.Add
  | FsActionKind.openDirectory => Action.Open

/-- The filesystem call each commit performs on entry `ent` in state `s`. -/
def fsKindOp : FsActionKind → NFMState → FileEntry → FsOp
  | FsActionKind.renameCommit, s, ent => FsOp.rename ent.name s.rename_buffer
  | FsActionKind.removeConfirm, _, ent =>
    if ent.ftype = FileType.file then FsOp.removeFile ent.name else FsOp.removeDirAll ent.name
  | FsActionKind.addCommit, s, _ =>
    if s.add_buffer.getLast? = some '/' then FsOp.createDir s.add_buffer
    else FsOp.createFile s.add_buffer
  | FsActionKind.openDirectory, _, ent => FsOp.setCurrentDir ent.name

/-- Preconditions under which the commit reaches its filesystem call. -/
def fsKindPre : FsActionKind → NFMState → FileEntry → Prop
  | FsActionKind.renameCommit, s, ent =>
    s.mode = Mode.Rename ∧ s.entries.get? s.selection = some ent ∧
      ent.name ≠ s.rename_buffer
  | FsActionKind.removeConfirm, s, ent =>
    s.mode = Mode.Remove ∧ s.entries.get? s.selection = some ent ∧
      ent.ftype ≠ FileType.other
  | FsActionKind.addCommit, s, _ => s.mode = Mode.Add
  | FsActionKind.openDirectory, s, ent =>
    s.mode = Mode.Normal ∧ s.entries.get? s.selection = some ent ∧
      ent.ftype = FileType.dir ∧ s.selection < s.entries.length % U16

/-- C1 (amended): when the filesystem call underlying a rename / remove /
add / open-directory commit fails, `handle_actions` aborts with that
I/O error (the `?` operator), and the `run` loop — rather than surfacing
the error in-session — propagates it, so the session terminates with the
error; no redraw of Viewport or Snapshot happens after the failure. -/
theorem C1_error_terminates (k : FsActionKind) (fsErr : FsOp → Option String)
    (raw : List FileEntry) (rows : Nat) (s : NFMState) (ent : FileEntry) (e : String)
    (hpre : fsKindPre k s ent)
    (hrun : s.should_close = false)
    (hfs : fsErr (fsKindOp k s ent) = some e) :
    handle_actions fsErr raw rows [fsKindAction k] s = .error e ∧
    run_iteration fsErr raw rows [fsKindAction k] s = .error e := by
  have hmain : handle_actions fsErr raw rows [fsKindAction k] s = .error e := by
    cases k with
    | renameCommit =>
      obtain ⟨hmode, hent, hne⟩ := hpre
      rw [List.get?_eq_getElem?] at hent
      simp only [fsKindOp] at hfs
      simp [handle_actions, handle_action, fsKindAction, hmode, hent, hne, hfs]
    | removeConfirm =>
      obtain ⟨hmode, hent, hft⟩ := hpre
      rw [List.get?_eq_getElem?] at hent
      cases hcase : ent.ftype with
      | file =>
        simp only [fsKindOp, hcase, reduceIte] at hfs
        simp [handle_actions, handle_action, fsKindAction, hmode, hent, hcase, hfs]
      | dir =>
        simp only [fsKindOp, hcase, reduceCtorEq, reduceIte] at hfs
        simp [handle_actions, handle_action, fsKindAction, hmode, hent, hcase, hfs]
      | other => exact absurd hcase hft
    | addCommit =>
      have hmode : s.mode = Mode.Add := hpre
      simp only [fsKindOp] at hfs
      by_cases hsl : s.add_buffer.getLast? = some '/' <;>
        simp only [hsl, reduceIte] at hfs <;>
        simp [handle_actions, handle_action, fsKindAction, hmode, hsl, hfs]
    | openDirectory =>
      obtain ⟨hmode, hent, hdir, hguard⟩ := hpre
      rw [List.get?_eq_getElem?] at hent
      have hnotge : ¬ (s.entries.length % U16 ≤ s.selection) := Nat.not_le.mpr hguard
      simp only [fsKindOp] at hfs
      simp [handle_actions, handle_action, fsKindAction, hmode, hent, hdir, hnotge, hfs]
  exact ⟨hmain, by simp [run_iteration, hrun, hmain]⟩

/-- All-fail filesystem oracle. -/
def fsAllFail : FsOp → Option String := fun _ => some "permission denied"

/-- Sample state: Rename mode over a one-file directory with an edited
buffer, about to commit. -/
def renamePending : NFMState :=
  { selection := 0, scroll := 0, entries := [⟨"a.txt".toList, FileType.file⟩],
    mode := Mode.Rename, show_hidden := false, rename_buffer := "b.txt".toList,
    add_buffer := [], search_buffer := [], should_close := false, cursor := 5 }

/-- C1 counterexample to the claim as stated: committing a rename whose
filesystem `rename` call fails does NOT leave the session running — the
iteration of `run` returns `Except.error` (`isOk = false`), which main.rs
lines 11-14 return from `main`, terminating the process instead of
surfacing the error in a status line. -/
theorem C1_counterexample :
    run_iteration fsAllFail [⟨"a.txt".toList, FileType.file⟩] 8
        [Action.Input KeyCode.Enter] renamePending = .error "permission denied" ∧
    (run_iteration fsAllFail [⟨"a.txt".toList, FileType.file⟩] 8
        [Action.Input KeyCode.Enter] renamePending).isOk = false :=
  ⟨rfl, rfl⟩

/-- C1 witness: a failing rename commit makes `handle_actions` and the run
iteration return the error. -/
theorem C1_witness :
    fsKindPre FsActionKind.renameCommit renamePending
      ⟨"a.txt".toList, FileType.file⟩ ∧
    renamePending.should_close = false ∧
    (handle_actions fsAllFail [] 8 [fsKindAction FsActionKind.renameCommit]
        renamePending = .error "permission denied" ∧
     run_iteration fsAllFail [] 8 [fsKindAction FsActionKind.renameCommit]
        renamePending = .error "permission denied") :=
  ⟨⟨rfl, by decide, by decide⟩, rfl,
    C1_error_terminates FsActionKind.renameCommit fsAllFail [] 8 renamePending
      ⟨"a.txt".toList, FileType.file⟩ "permission denied"
      ⟨rfl, by decide, by decide⟩ rfl rfl⟩

end NFM
